import Mathlib

/-!
# pingtunnel client (`client.go`): connection tables, packet dispatch, timeouts

A shallow embedding of the client endpoint of pingtunnel.  The Go program keeps
two maps from strings to `*ClientConn`; both maps point at the same heap
objects, so the embedding has an explicit heap of `ClientConn` records and the
maps hold references (heap addresses).  Calls to the outside world (the local
UDP socket, the ICMP socket, the local TCP socket) are recorded as a list of
events; what the outside world answers (the time, a read result, whether a
write failed, the next unique id) is an argument of the operation.  A call on
a nil socket pointer panics; `processPacket`, which makes such a call in TCP
mode, reports whether it panicked.
-/

namespace Pingtunnel

/-! ## Machine integers and time -/

/-- Go `int` / `int64` arithmetic wraps modulo 2^64 into the signed range. -/
def wrapInt64 (x : Int) : Int :=
  (x + 9223372036854775808) % 18446744073709551616 - 9223372036854775808

/-- The Go conversion `(int32)(x)`: the low 32 bits, read as a signed number. -/
def toInt32 (x : Int) : Int :=
  (x + 2147483648) % 4294967296 - 2147483648

/-- Go `uint64` arithmetic wraps modulo 2^64. -/
def wrapUInt64 (x : Nat) : Nat :=
  x % 18446744073709551616

/-- A `time.Time`, as a number of nanoseconds on the time line. -/
abbrev Time := Int

/-- The largest `time.Duration` (an `int64` number of nanoseconds). -/
def maxDuration : Int := 9223372036854775807

/-- The smallest `time.Duration`. -/
def minDuration : Int := -9223372036854775808

/-- The constant `time.Second`, in nanoseconds. -/
def Second : Int := 1000000000

/-- The method `t.Sub(u)` of `time.Time`: the difference as a `Duration`,
saturating at the largest and smallest `Duration`. -/
def Time_Sub (t u : Int) : Int :=
  if t - u > maxDuration then maxDuration
  else if t - u < minDuration then minDuration
  else t - u

/-! ## Addresses -/

/-- A `net.UDPAddr`, represented by its textual form `ip:port`, which is all
the client uses of it (as a table key and as a write destination). -/
structure UDPAddr where
  text : String
deriving DecidableEq, Repr

/-- A `net.TCPAddr`, represented by its textual form `ip:port`. -/
structure TCPAddr where
  text : String
deriving DecidableEq, Repr

/-- The method `String()` of `*net.UDPAddr`; on a nil receiver it returns
`"<nil>"`. -/
def UDPAddr_String : Option UDPAddr → String
  | none => "<nil>"
  | some a => a.text

/-- The method `String()` of `*net.TCPAddr`; on a nil receiver it returns
`"<nil>"`. -/
def TCPAddr_String : Option TCPAddr → String
  | none => "<nil>"
  | some a => a.text

/-! ## Data model -/

/-- The record `ClientConn`.  `fm` is the pointer to the connection's frame
manager, nil (`none`) for a connection made by the UDP acceptor; `F` is the
state of a frame manager. -/
structure ClientConn (F : Type) where
  ipaddr : Option UDPAddr
  tcpaddr : Option TCPAddr
  id : String
  activeTime : Time
  close : Bool
  fm : Option F

/-- A Go `map[string]*ClientConn`: a key is absent (`none`) or bound to the
address of a `ClientConn` on the heap. -/
abbrev ConnMap := String → Option Nat

/-- The map `make(map[string]*ClientConn)` returns. -/
def emptyMap : ConnMap := fun _ => none

/-- The assignment `m[k] = r`. -/
def mapSet (m : ConnMap) (k : String) (r : Nat) : ConnMap :=
  fun j => if j = k then some r else m j

/-- The statement `delete(m, k)`. -/
def mapDelete (m : ConnMap) (k : String) : ConnMap :=
  fun j => if j = k then none else m j

/-- Writing the record `c` at heap address `r`. -/
def storeConn {F : Type} (heap : Nat → ClientConn F) (r : Nat) (c : ClientConn F) :
    Nat → ClientConn F :=
  fun i => if i = r then c else heap i

/-- A `net.UDPConn`; the model keeps of the pointer `*net.UDPConn` only
whether it is nil. -/
structure UDPConn where
  mk ::
deriving DecidableEq, Repr

/-- The record `Client`, without its address strings, its ICMP socket and its
TCP listener.  `listenConn` is the pointer to the local UDP socket, nil
(`none`) until `Run` sets it, which `Run` does in UDP mode only.  `heap` holds
the `ClientConn` objects and `nextRef` is the address the next
`&ClientConn{...}` gets. -/
structure Client (F : Type) where
  id : Int
  sequence : Int
  timeout : Int
  key : Int
  tcpmode : Int
  tcpmode_buffersize : Int
  tcpmode_maxwin : Int
  tcpmode_resend_timems : Int
  listenConn : Option UDPConn
  localAddrToConnMap : ConnMap
  localIdToConnMap : ConnMap
  heap : Nat → ClientConn F
  nextRef : Nat
  sendPacket : Nat
  recvPacket : Nat
  sendPacketSize : Nat
  recvPacketSize : Nat

/-- Modelled from the spec: the message type DATA of the envelope
(`enum {DATA, PING}`); the generated protobuf file that declares `MyMsg_DATA`
is not part of the sources. -/
def MyMsg_DATA : Int := 0

/-- Modelled from the spec: the message type PING of the envelope
(`enum {DATA, PING}`); the generated protobuf file that declares `MyMsg_PING`
is not part of the sources. -/
def MyMsg_PING : Int := 1

/-- The fields of the protobuf message `MyMsg` the client reads (`Typ` is the
field `Type`); `Typ`, `Rproto` and `Key` are `int32` on the wire. -/
structure MyMsg where
  Id : String
  Typ : Int
  Data : List Nat
  Rproto : Int
  Key : Int

/-- The fields of `Packet` the client reads (`src` is only logged). -/
structure Packet where
  my : MyMsg
  echoId : Int

/-- What the client does to the outside world.  `WriteToUDP` is the call
`p.listenConn.WriteToUDP(data, addr)`. -/
inductive Event where
  | WriteToUDP (data : List Nat) (addr : Option UDPAddr)
  | sendICMP (id : Int) (sequence : Int) (connId : String) (typ : Int) (data : List Nat)
      (key : Int)
  | Read
  | WriteSendBuffer (data : List Nat)
  | connClose
deriving DecidableEq, Repr

/-- The error a read returns: `nil`, a `net.Error` whose `Timeout()` is true,
or any other error. -/
inductive ReadErr where
  | nil
  | timeout
  | other
deriving DecidableEq, Repr

/-- The result `(n, srcaddr, err)` of `ReadFromUDP(bytes)`, with the buffer
`bytes` as the read left it. -/
structure UDPRead where
  n : Int
  srcaddr : Option UDPAddr
  err : ReadErr
  bytes : List Nat

/-- The result `(n, err)` of `conn.Read(bytes)` on the local TCP connection,
with the buffer `bytes` as the read left it. -/
structure TCPRead where
  n : Int
  err : ReadErr
  bytes : List Nat

/-- The frame manager (`FrameMgr`) and `proto.Marshal` are not part of the
sources: the operations `AcceptTcpConn` calls are parameters.  `Update` takes
the current time. -/
structure FrameMgrOps (F : Type) (Frame : Type) where
  NewFrameMgr : Int → Int → Int → F
  GetSendBufferLeft : F → Int
  WriteSendBuffer : F → List Nat → F
  Update : Time → F → F
  getSendList : F → List Frame
  Marshal : Frame → Option (List Nat)

/-! ## Operations of `client.go` -/

/-- The method `Client.Close`. -/
def Close {F : Type} (p : Client F) (clientConn : ClientConn F) : Client F :=
  if (p.localIdToConnMap clientConn.id).isSome then
    { p with
      localIdToConnMap := mapDelete p.localIdToConnMap clientConn.id
      localAddrToConnMap := mapDelete p.localAddrToConnMap (UDPAddr_String clientConn.ipaddr) }
  else p

/-- What a call of `processPacket` leaves behind: the client state, the calls
made to the outside world, and whether the call ended in a panic (a nil
pointer dereference, which stops the main loop) instead of returning. -/
structure PacketResult (F : Type) where
  state : Client F
  events : List Event
  panicked : Bool

/-- The method `Client.processPacket`.  `now` is what `time.Now()` returns
and `werr` tells whether `WriteToUDP` returns an error.  When `p.listenConn`
is nil, the call `p.listenConn.WriteToUDP(...)` panics: the state is the one
reached before the call (`activeTime` is set) and nothing after the call is
executed. -/
def processPacket {F : Type} (p : Client F) (packet : Packet) (now : Time) (werr : Bool) :
    PacketResult F :=
  if packet.my.Rproto ≥ 0 then { state := p, events := [], panicked := false }
  else if packet.my.Key ≠ toInt32 p.key then { state := p, events := [], panicked := false }
  else if packet.echoId ≠ p.id then { state := p, events := [], panicked := false }
  else if packet.my.Typ = toInt32 MyMsg_PING then
    { state := p, events := [], panicked := false }
  else
    match p.localIdToConnMap packet.my.Id with
    | none => { state := p, events := [], panicked := false }
    | some r =>
      let clientConn := p.heap r
      let addr := clientConn.ipaddr
      let clientConn1 := { clientConn with activeTime := now }
      let p1 := { p with heap := storeConn p.heap r clientConn1 }
      match p.listenConn with
      | none =>
        { state := p1, events := [Event.WriteToUDP packet.my.Data addr], panicked := true }
      | some _ =>
        if werr then
          { state := { p1 with heap := storeConn p1.heap r { clientConn1 with close := true } }
            events := [Event.WriteToUDP packet.my.Data addr]
            panicked := false }
        else
          { state := { p1 with
              recvPacket := wrapUInt64 (p1.recvPacket + 1)
              recvPacketSize := wrapUInt64 (p1.recvPacketSize + packet.my.Data.length) }
            events := [Event.WriteToUDP packet.my.Data addr]
            panicked := false }

/-- One turn of the loop of `Client.Accept`, from `ReadFromUDP` on.  `rd` is
what the read returns, `now` what `time.Now()` returns and `uuid` what
`UniqueId()` returns when it is called. -/
def Accept {F : Type} (p : Client F) (rd : UDPRead) (now : Time) (uuid : String) :
    Client F × List Event :=
  if rd.err = ReadErr.other then (p, [])
  else if rd.n ≤ 0 then (p, [])
  else
    let key := UDPAddr_String rd.srcaddr
    let pr : Client F × Nat :=
      match p.localAddrToConnMap key with
      | some r => (p, r)
      | none =>
        let r := p.nextRef
        ({ p with
            heap := storeConn p.heap r
              { ipaddr := rd.srcaddr, tcpaddr := none, id := uuid, activeTime := now,
                close := false, fm := none }
            nextRef := r + 1
            localAddrToConnMap := mapSet p.localAddrToConnMap key r
            localIdToConnMap := mapSet p.localIdToConnMap uuid r }, r)
    let p1 := pr.1
    let r := pr.2
    let clientConn := { p1.heap r with activeTime := now }
    let p2 := { p1 with heap := storeConn p1.heap r clientConn }
    ({ p2 with
        sequence := wrapInt64 (p2.sequence + 1)
        sendPacket := wrapUInt64 (p2.sendPacket + 1)
        sendPacketSize := wrapUInt64 (p2.sendPacketSize + rd.n.toNat) },
      [Event.sendICMP p2.id p2.sequence clientConn.id MyMsg_DATA (rd.bytes.take rd.n.toNat)
        p2.key])

/-- The first loop of `Client.checkTimeoutConn`: `order` is the order in
which `range` yields the keys of `localIdToConnMap` (Go leaves it open). -/
def markTimeout {F : Type} (now : Time) : Client F → List String → Client F
  | p, [] => p
  | p, k :: ks =>
    match p.localIdToConnMap k with
    | none => markTimeout now p ks
    | some r =>
      let conn := p.heap r
      let diff := Time_Sub now conn.activeTime
      if diff > wrapInt64 (Second * p.timeout) then
        markTimeout now { p with heap := storeConn p.heap r { conn with close := true } } ks
      else markTimeout now p ks

/-- The second loop of `Client.checkTimeoutConn`: `order` is the order in
which `range` yields the keys; a key deleted before it is reached is not
visited, as in Go. -/
def sweepClosed {F : Type} : Client F → List String → Client F
  | p, [] => p
  | p, k :: ks =>
    match p.localIdToConnMap k with
    | none => sweepClosed p ks
    | some r =>
      let conn := p.heap r
      if conn.close then sweepClosed (Close p conn) ks
      else sweepClosed p ks

/-- The method `Client.checkTimeoutConn`; `order1` and `order2` are the
iteration orders of its two `range` loops. -/
def checkTimeoutConn {F : Type} (p : Client F) (now : Time) (order1 order2 : List String) :
    Client F :=
  if p.tcpmode > 0 then p
  else sweepClosed (markTimeout now p order1) order2

/-- The method `Client.ping`; `b` is the marshalled current time. -/
def ping {F : Type} (p : Client F) (b : List Nat) : Client F × List Event :=
  if p.sendPacket = 0 then
    ({ p with sequence := wrapInt64 (p.sequence + 1) },
      [Event.sendICMP p.id p.sequence "" MyMsg_PING b p.key])
  else (p, [])

/-- The method `Client.showNet` (the log line apart). -/
def showNet {F : Type} (p : Client F) : Client F :=
  { p with sendPacket := 0, recvPacket := 0, sendPacketSize := 0, recvPacketSize := 0 }

/-- The start of `Client.AcceptTcpConn`, up to the loop: the new connection
is registered.  Returns the new state and the address of the new record. -/
def AcceptTcpConn_open {F Frame : Type} (ops : FrameMgrOps F Frame) (p : Client F)
    (tcpsrcaddr : TCPAddr) (uuid : String) (now : Time) : Client F × Nat :=
  let fm := ops.NewFrameMgr p.tcpmode_buffersize p.tcpmode_maxwin p.tcpmode_resend_timems
  let r := p.nextRef
  ({ p with
      heap := storeConn p.heap r
        { ipaddr := none, tcpaddr := some tcpsrcaddr, id := uuid, activeTime := now,
          close := false, fm := some fm }
      nextRef := r + 1
      localAddrToConnMap := mapSet p.localAddrToConnMap (TCPAddr_String (some tcpsrcaddr)) r
      localIdToConnMap := mapSet p.localIdToConnMap uuid r }, r)

/-- The inner loop of `Client.AcceptTcpConn` over the send list. -/
def sendFrames {F Frame : Type} (ops : FrameMgrOps F Frame) (r : Nat) :
    Client F → List Frame → Client F × List Event
  | p, [] => (p, [])
  | p, f :: fs =>
    match ops.Marshal f with
    | none => sendFrames ops r p fs
    | some mb =>
      let p1 := { p with
        sequence := wrapInt64 (p.sequence + 1)
        sendPacket := wrapUInt64 (p.sendPacket + 1)
        sendPacketSize := wrapUInt64 (p.sendPacketSize + mb.length) }
      let rest := sendFrames ops r p1 fs
      (rest.1, Event.sendICMP p1.id p1.sequence (p1.heap r).id MyMsg_DATA mb p1.key :: rest.2)

/-- The second half of a turn of the outer loop of `Client.AcceptTcpConn`,
from `fm.Update()` on: `fm1` is the frame manager as the first half left it
and `evs` the events of the first half. -/
def AcceptTcpConn_send {F Frame : Type} (ops : FrameMgrOps F Frame) (p : Client F) (r : Nat)
    (now : Time) (fm1 : F) (evs : List Event) : Client F × List Event × Bool :=
  let fm2 := ops.Update now fm1
  let sendlist := ops.getSendList fm2
  let p1 := { p with
    heap := storeConn p.heap r { p.heap r with fm := some fm2, activeTime := now } }
  let res := sendFrames ops r p1 sendlist
  (res.1, evs ++ res.2, false)

/-- One turn of the outer loop of `Client.AcceptTcpConn` for the connection at
heap address `r`.  `rd` is what `conn.Read` returns if it is called.  The
result is `none` when the frame manager pointer is nil (a nil dereference in
Go); otherwise the new state, the events, and whether the loop was left by
`break`. -/
def AcceptTcpConn_iter {F Frame : Type} (ops : FrameMgrOps F Frame) (p : Client F) (r : Nat)
    (rd : TCPRead) (now : Time) : Option (Client F × List Event × Bool) :=
  match (p.heap r).fm with
  | none => none
  | some fm =>
    let left := ops.GetSendBufferLeft fm
    if left ≥ 10240 then
      if rd.err = ReadErr.other then some (p, [Event.Read], true)
      else if rd.n > 0 then
        let data := rd.bytes.take rd.n.toNat
        some (AcceptTcpConn_send ops p r now (ops.WriteSendBuffer fm data)
          [Event.Read, Event.WriteSendBuffer data])
      else some (AcceptTcpConn_send ops p r now fm [Event.Read])
    else some (AcceptTcpConn_send ops p r now fm [])

/-- The end of `Client.AcceptTcpConn`, after the loop: the local connection
is closed and `Close` is called with the connection's record. -/
def AcceptTcpConn_exit {F : Type} (p : Client F) (r : Nat) : Client F × List Event :=
  (Close p (p.heap r), [Event.connClose])

/-! ## Concrete states, used to run the operations -/

/-- The zero value of `ClientConn`. -/
def zeroConn (F : Type) : ClientConn F :=
  { ipaddr := none, tcpaddr := none, id := "", activeTime := 0, close := false, fm := none }

/-- A client as `NewClient` and the start of `Run` leave it: the local UDP
socket is set in UDP mode only, the tables are empty, nothing is allocated,
all counters are zero. -/
def newClient (F : Type) (id timeout key tcpmode : Int) : Client F :=
  { id := id, sequence := 0, timeout := timeout, key := key, tcpmode := tcpmode,
    tcpmode_buffersize := 20480, tcpmode_maxwin := 10, tcpmode_resend_timems := 400,
    listenConn := if tcpmode > 0 then none else some UDPConn.mk,
    localAddrToConnMap := emptyMap, localIdToConnMap := emptyMap,
    heap := fun _ => zeroConn F, nextRef := 0,
    sendPacket := 0, recvPacket := 0, sendPacketSize := 0, recvPacketSize := 0 }

/-- Modelled from the spec: the send side of a Reliable-Delivery Manager cut
down to a bounded send buffer (`FrameMgr` is not part of the sources): writes
append to the buffer, `Update` packages the buffered bytes into one frame, and
a frame marshals to its bytes.  It only serves to run `AcceptTcpConn` on
concrete inputs. -/
structure SimpleFm where
  size : Int
  buffer : List Nat
  sendlist : List (List Nat)

/-- The operations of `SimpleFm`. -/
def simpleOps : FrameMgrOps SimpleFm (List Nat) where
  NewFrameMgr := fun size _ _ => { size := size, buffer := [], sendlist := [] }
  GetSendBufferLeft := fun fm => fm.size - fm.buffer.length
  WriteSendBuffer := fun fm d => { fm with buffer := fm.buffer ++ d }
  Update := fun _ fm =>
    { fm with buffer := [], sendlist := if fm.buffer.isEmpty then [] else [fm.buffer] }
  getSendList := fun fm => fm.sendlist
  Marshal := fun f => some f

/-- The sequence numbers of the packets handed to `sendICMP`, in order. -/
def sentSequences : List Event → List Int
  | [] => []
  | Event.sendICMP _ s _ _ _ _ :: es => s :: sentSequences es
  | _ :: es => sentSequences es

/-- A UDP-mode client with id 7 and key 123, nothing registered. -/
def udpClient : Client Unit := newClient Unit 7 60 123 0

/-- A datagram of three bytes from 127.0.0.1:5000, read without error. -/
def datagram : UDPRead :=
  { n := 3, srcaddr := some { text := "127.0.0.1:5000" }, err := ReadErr.nil,
    bytes := [1, 2, 3, 0, 0] }

/-- The UDP-mode client after the datagram: one connection, id `"c1"`. -/
def udpClient1 : Client Unit := (Accept udpClient datagram 100 "c1").1

/-- The UDP-mode client with one connection and the key 4294967301, which
does not fit `int32`. -/
def bigKeyClient : Client Unit := { udpClient1 with key := 4294967301 }

/-- An inbound DATA packet for connection `"c1"` with key 5 and echo id 7. -/
def keyFivePacket : Packet :=
  { my := { Id := "c1", Typ := 0, Data := [9, 8], Rproto := -1, Key := 5 }, echoId := 7 }

/-- An inbound DATA packet for connection `"t1"` with key 123 and echo id 7. -/
def tcpDataPacket : Packet :=
  { my := { Id := "t1", Typ := 0, Data := [9, 8], Rproto := -1, Key := 123 }, echoId := 7 }

/-- A TCP-mode client with id 7 and key 123, nothing registered. -/
def tcpClient : Client SimpleFm := newClient SimpleFm 7 60 123 1

/-- The TCP-mode client after a local connection from 127.0.0.1:40000 was
accepted and registered with id `"t1"`; its record is at heap address 0. -/
def tcpClient1 : Client SimpleFm :=
  (AcceptTcpConn_open simpleOps tcpClient { text := "127.0.0.1:40000" } "t1" 0).1

/-- The result of `conn.Read` used in the runs: three bytes in a buffer of
10240. -/
def tcpRead : TCPRead :=
  { n := 3, err := ReadErr.nil, bytes := [1, 2, 3] ++ List.replicate 10237 0 }

/-- A datagram of two bytes from 127.0.0.1:5001, read without error. -/
def datagram2 : UDPRead :=
  { n := 2, srcaddr := some { text := "127.0.0.1:5001" }, err := ReadErr.nil,
    bytes := [4, 5, 0, 0, 0] }

/-- The UDP-mode client after a second datagram, from another address, fifty
seconds later: two connections, `"c1"` last active at 100 ns and `"c2"` at
50 s. -/
def udpClient2 : Client Unit := (Accept udpClient1 datagram2 50000000000 "c2").1

/-! ## Consistency of the two tables -/

/-- The two tables are consistent: every entry of `localIdToConnMap` is a
record stored under its own id, every entry of `localAddrToConnMap` is a record
stored under the text of its own `ipaddr`, and a record is in the one table
exactly when it is in the other. -/
def Consistent {F : Type} (p : Client F) : Prop :=
  (∀ k r, p.localIdToConnMap k = some r →
    (p.heap r).id = k ∧ p.localAddrToConnMap (UDPAddr_String (p.heap r).ipaddr) = some r) ∧
  (∀ a r, p.localAddrToConnMap a = some r →
    UDPAddr_String (p.heap r).ipaddr = a ∧ p.localIdToConnMap (p.heap r).id = some r)

/-- Every record in `localIdToConnMap` was allocated: its address is below
`nextRef`. -/
def Allocated {F : Type} (p : Client F) : Prop :=
  ∀ k r, p.localIdToConnMap k = some r → r < p.nextRef

/-- The states a UDP-mode client reaches from empty tables by datagram
handling in `Accept` (where `UniqueId` returns an id that is not a key of
`localIdToConnMap`), `processPacket`, `checkTimeoutConn` and `Close` (called,
as in the code, with a record taken from `localIdToConnMap`). -/
inductive Reachable {F : Type} : Client F → Prop where
  | start (p : Client F) (hmode : p.tcpmode ≤ 0) (hid : p.localIdToConnMap = emptyMap)
      (haddr : p.localAddrToConnMap = emptyMap) : Reachable p
  | accept (p : Client F) (rd : UDPRead) (now : Time) (uuid : String) (h : Reachable p)
      (hfresh : p.localIdToConnMap uuid = none) : Reachable (Accept p rd now uuid).1
  | packet (p : Client F) (packet : Packet) (now : Time) (werr : Bool) (h : Reachable p) :
      Reachable (processPacket p packet now werr).1
  | check (p : Client F) (now : Time) (order1 order2 : List String) (h : Reachable p) :
      Reachable (checkTimeoutConn p now order1 order2)
  | close (p : Client F) (k : String) (r : Nat) (h : Reachable p)
      (hk : p.localIdToConnMap k = some r) : Reachable (Close p (p.heap r))

/-! ## Packet dispatch: `processPacket` -/

/-- C1 (as amended): a packet whose key differs from the client's key
converted to `int32`, or whose echo id differs from the client's id, or whose
connection id is not a key of `localIdToConnMap`, leaves the whole client state
unchanged (both tables, every `ClientConn`, all counters) and causes no write
to the local socket; `processPacket` returns (no panic). -/
theorem processPacket_drop {F : Type} (p : Client F) (packet : Packet) (now : Time)
    (werr : Bool)
    (h : packet.my.Key ≠ toInt32 p.key ∨ packet.echoId ≠ p.id ∨
      p.localIdToConnMap packet.my.Id = none) :
    processPacket p packet now werr = { state := p, events := [], panicked := false } := by
  unfold processPacket
  rcases h with h | h | h
  · simp only [h, ne_eq, not_false_eq_true, if_true, ite_self]
  · simp only [h, ne_eq, not_false_eq_true, if_true, ite_self]
  · simp only [h, ite_self]

/-- Witness for C1 (as amended): a packet with key 124 sent to the client with
key 123 is dropped without effect. -/
theorem processPacket_drop_witness :
    (124 : Int) ≠ toInt32 udpClient1.key ∧
    processPacket udpClient1
        { my := { Id := "c1", Typ := 0, Data := [9, 8], Rproto := -1, Key := 124 },
          echoId := 7 } 200 false
      = { state := udpClient1, events := [], panicked := false } :=
  ⟨by decide, processPacket_drop udpClient1 _ 200 false (Or.inl (by decide))⟩

/-- C1 (as stated) fails: the client key 4294967301 does not fit `int32` and
is compared as 5; the packet with key 5 differs from the client's key, yet it
is delivered: one write to the local socket, and `recvPacket` goes from 0 to 1. -/
theorem processPacket_key_truncated :
    keyFivePacket.my.Key ≠ bigKeyClient.key ∧
    (processPacket bigKeyClient keyFivePacket 200 false).2
      = [Event.WriteToUDP [9, 8] (some { text := "127.0.0.1:5000" })] ∧
    bigKeyClient.recvPacket = 0 ∧
    (processPacket bigKeyClient keyFivePacket 200 false).1.recvPacket = 1 := by
  refine ⟨by decide, ?_, ?_, ?_⟩ <;> rfl

/-- In a client whose local UDP socket is nil, as `Run` leaves it in TCP mode,
a packet that passes the filters and names a registered connection makes
`processPacket` panic in the call of `WriteToUDP`: only `activeTime` of the
record has changed, its close flag and the counters have not. -/
theorem processPacket_nil_listenConn {F : Type} (p : Client F) (packet : Packet) (now : Time)
    (werr : Bool) (r : Nat) (hsock : p.listenConn = none)
    (h1 : packet.my.Rproto < 0) (h2 : packet.my.Key = toInt32 p.key)
    (h3 : packet.echoId = p.id) (h4 : packet.my.Typ ≠ toInt32 MyMsg_PING)
    (h5 : p.localIdToConnMap packet.my.Id = some r) :
    (processPacket p packet now werr).panicked = true ∧
    ((processPacket p packet now werr).state.heap r).close = (p.heap r).close ∧
    ((processPacket p packet now werr).state.heap r).activeTime = now ∧
    (processPacket p packet now werr).state.recvPacket = p.recvPacket ∧
    (processPacket p packet now werr).state.recvPacketSize = p.recvPacketSize := by
  have h1n : ¬ packet.my.Rproto ≥ 0 := not_le.mpr h1
  unfold processPacket
  simp only [h1n, h2, h3, h4, h5, hsock, ne_eq, not_true_eq_false, if_false, storeConn,
    if_true, and_self]

/-- C3 (the code at the failing input): in TCP mode, where `Run` leaves the
local UDP socket nil, for a DATA packet that passes the filters and names the
registered connection `"t1"`, `processPacket` does not hand the payload to the
connection's frame manager: it calls `WriteToUDP` on the nil listen socket
with the payload and panics there, whether or not a write would fail.  The
frame manager of the record is as it was, its close flag is still false and
nothing was counted as received. -/
theorem processPacket_tcpmode_bypasses_fm :
    tcpClient1.tcpmode > 0 ∧
    tcpClient1.listenConn = none ∧
    tcpClient1.localIdToConnMap "t1" = some 0 ∧
    (∀ werr : Bool,
      (processPacket tcpClient1 tcpDataPacket 200 werr).panicked = true ∧
      (processPacket tcpClient1 tcpDataPacket 200 werr).events
        = [Event.WriteToUDP [9, 8] none] ∧
      ((processPacket tcpClient1 tcpDataPacket 200 werr).state.heap 0).fm
        = (tcpClient1.heap 0).fm ∧
      ((processPacket tcpClient1 tcpDataPacket 200 werr).state.heap 0).close = false ∧
      (processPacket tcpClient1 tcpDataPacket 200 werr).state.recvPacket = 0) := by
  refine ⟨by decide, rfl, rfl, ?_⟩
  intro werr
  cases werr <;> exact ⟨rfl, rfl, rfl, rfl, rfl⟩

/-! ## The UDP acceptor: `Accept` -/

/-- C6: for a non-empty datagram read by `Accept` from source address `a` (the
read not failing with a non-timeout error).  If `a` is not a key of
`localAddrToConnMap`, a newly allocated `ClientConn` with the id `UniqueId`
returned, `ipaddr` the source address and `close = false` is registered under
`a` in `localAddrToConnMap` and under its id in `localIdToConnMap`, and the
envelope carries that id.  If `a` is a key, both tables stay as they are and
the envelope carries the id of the record registered under `a`.  In both cases
every other table entry, and every other `ClientConn`, is unchanged. -/
theorem Accept_registers {F : Type} (p : Client F) (rd : UDPRead) (now : Time) (uuid : String)
    (herr : rd.err ≠ ReadErr.other) (hn : 0 < rd.n) :
    (p.localAddrToConnMap (UDPAddr_String rd.srcaddr) = none →
      (Accept p rd now uuid).1.localAddrToConnMap (UDPAddr_String rd.srcaddr)
        = some p.nextRef ∧
      (Accept p rd now uuid).1.localIdToConnMap uuid = some p.nextRef ∧
      ((Accept p rd now uuid).1.heap p.nextRef).id = uuid ∧
      ((Accept p rd now uuid).1.heap p.nextRef).ipaddr = rd.srcaddr ∧
      ((Accept p rd now uuid).1.heap p.nextRef).close = false ∧
      (Accept p rd now uuid).1.nextRef = p.nextRef + 1 ∧
      (∀ k, k ≠ UDPAddr_String rd.srcaddr →
        (Accept p rd now uuid).1.localAddrToConnMap k = p.localAddrToConnMap k) ∧
      (∀ k, k ≠ uuid →
        (Accept p rd now uuid).1.localIdToConnMap k = p.localIdToConnMap k) ∧
      (∀ i, i ≠ p.nextRef → (Accept p rd now uuid).1.heap i = p.heap i) ∧
      (Accept p rd now uuid).2
        = [Event.sendICMP p.id p.sequence uuid MyMsg_DATA (rd.bytes.take rd.n.toNat) p.key]) ∧
    (∀ r, p.localAddrToConnMap (UDPAddr_String rd.srcaddr) = some r →
      (Accept p rd now uuid).1.localAddrToConnMap = p.localAddrToConnMap ∧
      (Accept p rd now uuid).1.localIdToConnMap = p.localIdToConnMap ∧
      (Accept p rd now uuid).1.nextRef = p.nextRef ∧
      (∀ i, i ≠ r → (Accept p rd now uuid).1.heap i = p.heap i) ∧
      (Accept p rd now uuid).2
        = [Event.sendICMP p.id p.sequence (p.heap r).id MyMsg_DATA
            (rd.bytes.take rd.n.toNat) p.key]) := by
  have hn2 : ¬ rd.n ≤ 0 := not_le.mpr hn
  constructor
  · intro hnew
    unfold Accept
    simp only [herr, hn2, if_false, hnew, mapSet, storeConn, if_true]
    refine ⟨trivial, trivial, trivial, trivial, trivial, trivial, ?_, ?_, ?_, trivial⟩
    · intro k hk
      simp only [hk, if_false]
    · intro k hk
      simp only [hk, if_false]
    · intro i hi
      simp only [hi, if_false]
  · intro r hold
    unfold Accept
    simp only [herr, hn2, if_false, hold, storeConn, if_true]
    refine ⟨trivial, trivial, trivial, ?_, trivial⟩
    intro i hi
    simp only [hi, if_false]

/-- Witness for C6: the first datagram from 127.0.0.1:5000 registers a new
connection at heap address 0. -/
theorem Accept_registers_witness :
    (Accept udpClient datagram 100 "c1").1.localAddrToConnMap "127.0.0.1:5000" = some 0 ∧
    (Accept udpClient datagram 100 "c1").1.localIdToConnMap "c1" = some 0 :=
  have h := (Accept_registers udpClient datagram 100 "c1" (by decide) (by decide)).1 rfl
  ⟨h.1, h.2.1⟩

/-! ## The per-connection TCP loop: `AcceptTcpConn` -/

/-- The inner loop over the send list only calls `sendICMP`. -/
theorem sendFrames_events {F Frame : Type} (ops : FrameMgrOps F Frame) (r : Nat)
    (fs : List Frame) :
    ∀ (p : Client F) (e : Event), e ∈ (sendFrames ops r p fs).2 →
      e ≠ Event.Read ∧ ∀ d, e ≠ Event.WriteSendBuffer d := by
  induction fs with
  | nil => intro p e he; simp [sendFrames] at he
  | cons f fs ih =>
    intro p e he
    unfold sendFrames at he
    cases hm : ops.Marshal f with
    | none =>
      rw [hm] at he
      exact ih p e he
    | some mb =>
      rw [hm] at he
      simp only [List.mem_cons] at he
      rcases he with he | he
      · subst he
        exact ⟨by simp, fun d => by simp⟩
      · exact ih _ e he

/-- The inner loop over the send list leaves both tables as they are. -/
theorem sendFrames_tables {F Frame : Type} (ops : FrameMgrOps F Frame) (r : Nat)
    (fs : List Frame) :
    ∀ (p : Client F),
      (sendFrames ops r p fs).1.localIdToConnMap = p.localIdToConnMap ∧
      (sendFrames ops r p fs).1.localAddrToConnMap = p.localAddrToConnMap := by
  induction fs with
  | nil => intro p; exact ⟨rfl, rfl⟩
  | cons f fs ih =>
    intro p
    unfold sendFrames
    cases hm : ops.Marshal f with
    | none => exact ih p
    | some mb => exact ih _

/-- C5: in a turn of the loop of `AcceptTcpConn` (the read buffer has 10240
bytes and `conn.Read` returns at most that many), the turn returns, every
`WriteSendBuffer` call passes the `n` bytes just read, with
`0 < n ≤ 10240 ≤` the value `GetSendBufferLeft` returned in this turn, and when
that value is below 10240 the turn performs no read from the local socket (and
no write to the send buffer). -/
theorem AcceptTcpConn_backpressure {F Frame : Type} (ops : FrameMgrOps F Frame)
    (p : Client F) (r : Nat) (rd : TCPRead) (now : Time) (fm : F)
    (hfm : (p.heap r).fm = some fm) (hbuf : rd.bytes.length = 10240) (hn : rd.n ≤ 10240) :
    ∃ res, AcceptTcpConn_iter ops p r rd now = some res ∧
      (∀ d, Event.WriteSendBuffer d ∈ res.2.1 →
        d = rd.bytes.take rd.n.toNat ∧ (d.length : Int) = rd.n ∧ 0 < rd.n ∧ rd.n ≤ 10240 ∧
        10240 ≤ ops.GetSendBufferLeft fm) ∧
      (ops.GetSendBufferLeft fm < 10240 →
        Event.Read ∉ res.2.1 ∧ ∀ d, Event.WriteSendBuffer d ∉ res.2.1) := by
  have hsf := fun (q : Client F) (fs : List Frame) => sendFrames_events ops r fs q
  unfold AcceptTcpConn_iter
  simp only [hfm]
  by_cases hleft : ops.GetSendBufferLeft fm ≥ 10240
  · rw [if_pos hleft]
    by_cases herr : rd.err = ReadErr.other
    · rw [if_pos herr]
      refine ⟨_, rfl, ?_, ?_⟩
      · intro d hd
        simp at hd
      · intro hlt
        omega
    · rw [if_neg herr]
      by_cases hpos : rd.n > 0
      · rw [if_pos hpos]
        refine ⟨_, rfl, ?_, ?_⟩
        · intro d hd
          simp only [AcceptTcpConn_send, List.mem_append, List.mem_cons, List.mem_singleton,
            List.not_mem_nil, or_false] at hd
          rcases hd with (hd | hd) | hd
          · cases hd
          · injection hd with hd
            subst hd
            refine ⟨rfl, ?_, hpos, hn, hleft⟩
            rw [List.length_take, hbuf]
            omega
          · exact absurd rfl ((hsf _ _ _ hd).2 d)
        · intro hlt
          omega
      · rw [if_neg hpos]
        refine ⟨_, rfl, ?_, ?_⟩
        · intro d hd
          simp only [AcceptTcpConn_send, List.mem_append, List.mem_singleton] at hd
          rcases hd with hd | hd
          · cases hd
          · exact absurd rfl ((hsf _ _ _ hd).2 d)
        · intro hlt
          omega
  · rw [if_neg hleft]
    refine ⟨_, rfl, ?_, ?_⟩
    · intro d hd
      simp only [AcceptTcpConn_send, List.nil_append] at hd
      exact absurd rfl ((hsf _ _ _ hd).2 d)
    · intro _
      simp only [AcceptTcpConn_send, List.nil_append]
      exact ⟨fun h => (hsf _ _ _ h).1 rfl, fun d h => (hsf _ _ _ h).2 d rfl⟩

/-- Witness for C5: a turn of the loop on the freshly registered connection
(20480 bytes free) with a read of three bytes. -/
theorem AcceptTcpConn_backpressure_witness :
    ∃ res, AcceptTcpConn_iter simpleOps tcpClient1 0 tcpRead 5 = some res ∧
      (∀ d, Event.WriteSendBuffer d ∈ res.2.1 →
        d = tcpRead.bytes.take tcpRead.n.toNat ∧ (d.length : Int) = tcpRead.n ∧
        0 < tcpRead.n ∧ tcpRead.n ≤ 10240 ∧
        10240 ≤ simpleOps.GetSendBufferLeft (simpleOps.NewFrameMgr 20480 10 400)) ∧
      (simpleOps.GetSendBufferLeft (simpleOps.NewFrameMgr 20480 10 400) < 10240 →
        Event.Read ∉ res.2.1 ∧ ∀ d, Event.WriteSendBuffer d ∉ res.2.1) :=
  AcceptTcpConn_backpressure simpleOps tcpClient1 0 tcpRead 5
    (simpleOps.NewFrameMgr 20480 10 400) rfl
    (by simp only [tcpRead, List.length_append, List.length_replicate, List.length_cons,
      List.length_nil])
    (by decide)

/-- C8 (the code at the failing input): a TCP-mode client sends one frame in
a turn of `AcceptTcpConn`, which increments `sequence` to 1 before the send;
after `showNet` has reset the counters, `ping` sends with `sequence` still 1
and increments afterwards.  The two packets carry the same sequence value. -/
theorem sequence_repeats_after_tcp_send :
    (AcceptTcpConn_iter simpleOps tcpClient1 0 { n := 3, err := ReadErr.nil, bytes := [1, 2, 3] }
        5).map (fun res => sentSequences (res.2.1 ++ (ping (showNet res.1) [0]).2))
      = some [1, 1] := by
  rfl

/-- C4 (the code at the failing input): a TCP connection from 127.0.0.1:40000
is registered under that address and under its id `"t1"`; the loop is left on
a read error; the final `Close` removes the entry of `localIdToConnMap`, but
deletes the key `"<nil>"` from `localAddrToConnMap` (the record's `ipaddr` is
nil), so the entry under 127.0.0.1:40000 stays. -/
theorem AcceptTcpConn_close_keeps_addr_entry :
    tcpClient1.localAddrToConnMap "127.0.0.1:40000" = some 0 ∧
    tcpClient1.localIdToConnMap "t1" = some 0 ∧
    AcceptTcpConn_iter simpleOps tcpClient1 0 { n := 0, err := ReadErr.other, bytes := [] } 5
      = some (tcpClient1, [Event.Read], true) ∧
    (AcceptTcpConn_exit tcpClient1 0).1.localIdToConnMap "t1" = none ∧
    (AcceptTcpConn_exit tcpClient1 0).1.localAddrToConnMap "127.0.0.1:40000" = some 0 := by
  refine ⟨?_, ?_, ?_, ?_, ?_⟩ <;> rfl

/-! ## Consistency of the two tables: proofs -/

/-- Consistency only depends on the tables and on the `id` and `ipaddr` of the
records. -/
theorem Consistent_congr {F : Type} (p q : Client F)
    (hid : q.localIdToConnMap = p.localIdToConnMap)
    (haddr : q.localAddrToConnMap = p.localAddrToConnMap)
    (hheap : ∀ i, (q.heap i).id = (p.heap i).id ∧ (q.heap i).ipaddr = (p.heap i).ipaddr)
    (hc : Consistent p) : Consistent q := by
  obtain ⟨h1, h2⟩ := hc
  constructor
  · intro k r hk
    rw [hid] at hk
    rw [(hheap r).1, (hheap r).2, haddr]
    exact h1 k r hk
  · intro a r ha
    rw [haddr] at ha
    rw [(hheap r).1, (hheap r).2, hid]
    exact h2 a r ha

/-- `Close` on a registered record removes its entry from both tables and
keeps the tables consistent. -/
theorem Close_consistent {F : Type} (p : Client F) (k : String) (r : Nat)
    (hc : Consistent p) (hk : p.localIdToConnMap k = some r) :
    Consistent (Close p (p.heap r)) := by
  obtain ⟨h1, h2⟩ := hc
  have hid : (p.heap r).id = k := (h1 k r hk).1
  have haddr := (h1 k r hk).2
  have hopen : (p.localIdToConnMap (p.heap r).id).isSome = true := by
    rw [hid, hk]; rfl
  unfold Close
  rw [if_pos hopen]
  constructor
  · intro j s hj
    simp only [mapDelete] at hj ⊢
    by_cases e : j = (p.heap r).id
    · rw [if_pos e] at hj
      cases hj
    · rw [if_neg e] at hj
      obtain ⟨a1, a2⟩ := h1 j s hj
      refine ⟨a1, ?_⟩
      have hne : UDPAddr_String (p.heap s).ipaddr ≠ UDPAddr_String (p.heap r).ipaddr := by
        intro heq
        rw [heq, haddr] at a2
        injection a2 with a2
        subst a2
        exact e a1.symm
      rw [if_neg hne]
      exact a2
  · intro a s ha
    simp only [mapDelete] at ha ⊢
    by_cases e : a = UDPAddr_String (p.heap r).ipaddr
    · rw [if_pos e] at ha
      cases ha
    · rw [if_neg e] at ha
      obtain ⟨a1, a2⟩ := h2 a s ha
      refine ⟨a1, ?_⟩
      have hne : (p.heap s).id ≠ (p.heap r).id := by
        intro heq
        rw [heq, hid, hk] at a2
        injection a2 with a2
        subst a2
        exact e a1.symm
      rw [if_neg hne]
      exact a2

/-- `Close` leaves the heap and `nextRef` as they are and only deletes table
entries. -/
theorem Close_frame {F : Type} (p : Client F) (c : ClientConn F) :
    (Close p c).heap = p.heap ∧ (Close p c).nextRef = p.nextRef ∧
    (Close p c).timeout = p.timeout ∧
    (∀ k r, (Close p c).localIdToConnMap k = some r → p.localIdToConnMap k = some r) ∧
    (∀ k r, (Close p c).localAddrToConnMap k = some r → p.localAddrToConnMap k = some r) := by
  unfold Close
  split_ifs with h
  · refine ⟨rfl, rfl, rfl, ?_, ?_⟩
    · intro k r hk
      simp only [mapDelete] at hk
      split_ifs at hk
      exact hk
    · intro k r hk
      simp only [mapDelete] at hk
      split_ifs at hk
      exact hk
  · exact ⟨rfl, rfl, rfl, fun _ _ h => h, fun _ _ h => h⟩

/-- The first loop of `checkTimeoutConn` leaves the tables and, in every
record, all fields but `close` as they are; a close flag that is set stays
set. -/
theorem markTimeout_frame {F : Type} (now : Time) (order : List String) :
    ∀ (p : Client F),
      (markTimeout now p order).localIdToConnMap = p.localIdToConnMap ∧
      (markTimeout now p order).localAddrToConnMap = p.localAddrToConnMap ∧
      (markTimeout now p order).nextRef = p.nextRef ∧
      (markTimeout now p order).timeout = p.timeout ∧
      (∀ i, ((markTimeout now p order).heap i).id = (p.heap i).id ∧
        ((markTimeout now p order).heap i).ipaddr = (p.heap i).ipaddr ∧
        ((markTimeout now p order).heap i).activeTime = (p.heap i).activeTime ∧
        ((p.heap i).close = true → ((markTimeout now p order).heap i).close = true)) := by
  induction order with
  | nil => intro p; exact ⟨rfl, rfl, rfl, rfl, fun i => ⟨rfl, rfl, rfl, fun h => h⟩⟩
  | cons k ks ih =>
    intro p
    unfold markTimeout
    cases hk : p.localIdToConnMap k with
    | none => exact ih p
    | some r =>
      simp only
      split_ifs with hexp
      · obtain ⟨a1, a2, a3, a4, a5⟩ := ih
          { p with heap := storeConn p.heap r { p.heap r with close := true } }
        refine ⟨a1, a2, a3, a4, ?_⟩
        intro i
        obtain ⟨b1, b2, b3, b4⟩ := a5 i
        simp only [storeConn] at b1 b2 b3 b4
        by_cases e : i = r
        · subst e
          simp only [if_true] at b1 b2 b3 b4
          exact ⟨b1, b2, b3, fun _ => b4 trivial⟩
        · simp only [e, if_false] at b1 b2 b3 b4
          exact ⟨b1, b2, b3, b4⟩
      · exact ih p

/-- After the first loop of `checkTimeoutConn`, every record whose key the
loop visited and whose `activeTime` the loop found too old has its close flag
set. -/
theorem markTimeout_marks {F : Type} (now : Time) (order : List String) :
    ∀ (p : Client F) (k : String) (r : Nat), k ∈ order → p.localIdToConnMap k = some r →
      Time_Sub now (p.heap r).activeTime > wrapInt64 (Second * p.timeout) →
      ((markTimeout now p order).heap r).close = true := by
  induction order with
  | nil => intro p k r hmem; cases hmem
  | cons k0 ks ih =>
    intro p k r hmem hk hexp
    rcases List.mem_cons.mp hmem with e | hmem2
    · subst e
      unfold markTimeout
      rw [hk]
      simp only
      rw [if_pos hexp]
      apply (markTimeout_frame now ks _ |>.2.2.2.2 r).2.2.2
      simp only [storeConn, if_true]
    · unfold markTimeout
      cases hk0 : p.localIdToConnMap k0 with
      | none => exact ih p k r hmem2 hk hexp
      | some r0 =>
        simp only
        split_ifs with hexp0
        · refine ih _ k r hmem2 ?_ ?_
          · exact hk
          simp only [storeConn]
          by_cases e : r = r0
          · subst e
            simp only [if_true]
            exact hexp
          · simp only [e, if_false]
            exact hexp
        · exact ih p k r hmem2 hk hexp

/-- The second loop of `checkTimeoutConn` leaves the heap as it is and only
deletes table entries. -/
theorem sweepClosed_frame {F : Type} (order : List String) :
    ∀ (p : Client F),
      (sweepClosed p order).heap = p.heap ∧ (sweepClosed p order).nextRef = p.nextRef ∧
      (sweepClosed p order).timeout = p.timeout ∧
      (∀ k r, (sweepClosed p order).localIdToConnMap k = some r →
        p.localIdToConnMap k = some r) ∧
      (∀ k r, (sweepClosed p order).localAddrToConnMap k = some r →
        p.localAddrToConnMap k = some r) := by
  induction order with
  | nil => intro p; exact ⟨rfl, rfl, rfl, fun _ _ h => h, fun _ _ h => h⟩
  | cons k ks ih =>
    intro p
    unfold sweepClosed
    cases hk : p.localIdToConnMap k with
    | none => exact ih p
    | some r =>
      simp only
      split_ifs with hcl
      · obtain ⟨a1, a2, a3, a4, a5⟩ := ih (Close p (p.heap r))
        obtain ⟨c1, c2, c3, c4, c5⟩ := Close_frame p (p.heap r)
        exact ⟨a1.trans c1, a2.trans c2, a3.trans c3, fun j s h => c4 j s (a4 j s h),
          fun j s h => c5 j s (a5 j s h)⟩
      · exact ih p

/-- The second loop of `checkTimeoutConn` keeps consistent tables consistent. -/
theorem sweepClosed_consistent {F : Type} (order : List String) :
    ∀ (p : Client F), Consistent p → Consistent (sweepClosed p order) := by
  induction order with
  | nil => intro p hc; exact hc
  | cons k ks ih =>
    intro p hc
    unfold sweepClosed
    cases hk : p.localIdToConnMap k with
    | none => exact ih p hc
    | some r =>
      simp only
      split_ifs with hcl
      · exact ih _ (Close_consistent p k r hc hk)
      · exact ih p hc

/-- After the second loop of `checkTimeoutConn` on consistent tables, no
record under a key the loop visited has its close flag set. -/
theorem sweepClosed_sweeps {F : Type} (order : List String) :
    ∀ (p : Client F) (k : String) (r : Nat), Consistent p → k ∈ order →
      (sweepClosed p order).localIdToConnMap k = some r → (p.heap r).close = false := by
  induction order with
  | nil => intro p k r _ hmem; cases hmem
  | cons k0 ks ih =>
    intro p k r hc hmem hk
    unfold sweepClosed at hk
    cases hk0 : p.localIdToConnMap k0 with
    | none =>
      rw [hk0] at hk
      rcases List.mem_cons.mp hmem with e | hmem2
      · subst e
        have h := (sweepClosed_frame ks p).2.2.2.1 k r hk
        rw [hk0] at h
        cases h
      · exact ih p k r hc hmem2 hk
    | some r0 =>
      rw [hk0] at hk
      simp only at hk
      by_cases hcl : (p.heap r0).close = true
      · rw [if_pos hcl] at hk
        rcases List.mem_cons.mp hmem with e | hmem2
        · subst e
          have h := (sweepClosed_frame ks _).2.2.2.1 k r hk
          have hid : (p.heap r0).id = k := (hc.1 k r0 hk0).1
          unfold Close at h
          rw [hid, hk0] at h
          simp only [Option.isSome_some, if_true, mapDelete] at h
          cases h
        · have h := ih _ k r (Close_consistent p k0 r0 hc hk0) hmem2 hk
          rw [(Close_frame p (p.heap r0)).1] at h
          exact h
      · rw [if_neg hcl] at hk
        rcases List.mem_cons.mp hmem with e | hmem2
        · subst e
          have h := (sweepClosed_frame ks p).2.2.2.1 k r hk
          rw [hk0] at h
          injection h with h
          subst h
          exact Bool.eq_false_iff.mpr hcl
        · exact ih p k r hc hmem2 hk

/-- When `timeout * time.Second` does not fall below the smallest `Duration`,
a record last active more than `timeout` seconds before `now` passes the test
`now.Sub(conn.activeTime) > time.Second * time.Duration(timeout)` of the code. -/
theorem elapsed_passes_test (now t timeout : Int) (hlow : minDuration ≤ Second * timeout)
    (h : now - t > Second * timeout) :
    Time_Sub now t > wrapInt64 (Second * timeout) := by
  unfold Time_Sub wrapInt64
  unfold minDuration Second at hlow
  unfold Second at h
  unfold maxDuration minDuration Second
  split_ifs with h1 h2
  · omega
  · omega
  · omega

/-- Reading the heap at the address just written. -/
theorem storeConn_same {F : Type} (heap : Nat → ClientConn F) (r : Nat) (c : ClientConn F) :
    storeConn heap r c r = c := by
  simp [storeConn]

/-- Reading the heap at another address than the one just written. -/
theorem storeConn_other {F : Type} (heap : Nat → ClientConn F) (r i : Nat) (c : ClientConn F)
    (h : i ≠ r) : storeConn heap r c i = heap i := by
  simp [storeConn, h]

/-- The method `processPacket` leaves the tables and, in every record, the
`id`, the `ipaddr` and the frame manager as they are. -/
theorem processPacket_frame {F : Type} (p : Client F) (packet : Packet) (now : Time)
    (werr : Bool) :
    (processPacket p packet now werr).1.localIdToConnMap = p.localIdToConnMap ∧
    (processPacket p packet now werr).1.localAddrToConnMap = p.localAddrToConnMap ∧
    (processPacket p packet now werr).1.nextRef = p.nextRef ∧
    (∀ i, ((processPacket p packet now werr).1.heap i).id = (p.heap i).id ∧
      ((processPacket p packet now werr).1.heap i).ipaddr = (p.heap i).ipaddr ∧
      ((processPacket p packet now werr).1.heap i).fm = (p.heap i).fm) := by
  have triv : ∀ q : Client F, q.localIdToConnMap = q.localIdToConnMap ∧
      q.localAddrToConnMap = q.localAddrToConnMap ∧ q.nextRef = q.nextRef ∧
      (∀ i, (q.heap i).id = (q.heap i).id ∧ (q.heap i).ipaddr = (q.heap i).ipaddr ∧
        (q.heap i).fm = (q.heap i).fm) :=
    fun q => ⟨rfl, rfl, rfl, fun _ => ⟨rfl, rfl, rfl⟩⟩
  unfold processPacket
  by_cases h1 : packet.my.Rproto ≥ 0
  · rw [if_pos h1]; exact triv p
  rw [if_neg h1]
  by_cases h2 : packet.my.Key ≠ toInt32 p.key
  · rw [if_pos h2]; exact triv p
  rw [if_neg h2]
  by_cases h3 : packet.echoId ≠ p.id
  · rw [if_pos h3]; exact triv p
  rw [if_neg h3]
  by_cases h4 : packet.my.Typ = toInt32 MyMsg_PING
  · rw [if_pos h4]; exact triv p
  rw [if_neg h4]
  cases h5 : p.localIdToConnMap packet.my.Id with
  | none => exact triv p
  | some r =>
    have hstore : ∀ (c : ClientConn F) (i : Nat), c.id = (p.heap r).id →
        c.ipaddr = (p.heap r).ipaddr → c.fm = (p.heap r).fm →
        (storeConn p.heap r c i).id = (p.heap i).id ∧
        (storeConn p.heap r c i).ipaddr = (p.heap i).ipaddr ∧
        (storeConn p.heap r c i).fm = (p.heap i).fm := by
      intro c i e1 e2 e3
      by_cases e : i = r
      · subst e
        rw [storeConn_same]
        exact ⟨e1, e2, e3⟩
      · rw [storeConn_other _ _ _ _ e]
        exact ⟨rfl, rfl, rfl⟩
    cases hsock : p.listenConn with
    | none =>
      refine ⟨rfl, rfl, rfl, ?_⟩
      intro i
      exact hstore _ i rfl rfl rfl
    | some sock =>
      cases werr
      · refine ⟨rfl, rfl, rfl, ?_⟩
        intro i
        exact hstore _ i rfl rfl rfl
      · refine ⟨rfl, rfl, rfl, ?_⟩
        intro i
        dsimp only
        by_cases e : i = r
        · subst e
          simp only [storeConn_same, if_true, and_self]
        · simp only [storeConn_other _ _ _ _ e, if_true, and_self]

/-- Datagram handling in `Accept` keeps consistent tables consistent, when
every registered record is allocated and the id `UniqueId` returns is not a
key of `localIdToConnMap`. -/
theorem Accept_consistent {F : Type} (p : Client F) (rd : UDPRead) (now : Time)
    (uuid : String) (hc : Consistent p) (ha : Allocated p)
    (hfresh : p.localIdToConnMap uuid = none) :
    Consistent (Accept p rd now uuid).1 ∧ Allocated (Accept p rd now uuid).1 := by
  unfold Accept
  by_cases h1 : rd.err = ReadErr.other
  · rw [if_pos h1]; exact ⟨hc, ha⟩
  rw [if_neg h1]
  by_cases h2 : rd.n ≤ 0
  · rw [if_pos h2]; exact ⟨hc, ha⟩
  rw [if_neg h2]
  obtain ⟨c1, c2⟩ := hc
  dsimp only
  cases hl : p.localAddrToConnMap (UDPAddr_String rd.srcaddr) with
  | some r =>
    dsimp only
    refine ⟨Consistent_congr p _ rfl rfl ?_ ⟨c1, c2⟩, ha⟩
    intro i
    dsimp only
    by_cases e : i = r
    · subst e
      simp only [storeConn_same, and_self]
    · simp only [storeConn_other _ _ _ _ e, and_self]
  | none =>
    dsimp only
    refine ⟨⟨?_, ?_⟩, ?_⟩
    · intro k r hk
      dsimp only [mapSet] at hk ⊢
      by_cases e : k = uuid
      · rw [if_pos e] at hk
        injection hk with hk
        subst hk
        simp only [storeConn_same, e, if_true, and_self]
      · rw [if_neg e] at hk
        have hlt : r ≠ p.nextRef := Nat.ne_of_lt (ha k r hk)
        obtain ⟨a1, a2⟩ := c1 k r hk
        have hne : UDPAddr_String (p.heap r).ipaddr ≠ UDPAddr_String rd.srcaddr := by
          intro heq
          rw [heq, hl] at a2
          cases a2
        simp only [storeConn_other _ _ _ _ hlt, storeConn_same, if_neg hne]
        exact ⟨a1, a2⟩
    · intro a r hk
      dsimp only [mapSet] at hk ⊢
      by_cases e : a = UDPAddr_String rd.srcaddr
      · rw [if_pos e] at hk
        injection hk with hk
        subst hk
        simp only [storeConn_same, e, if_true, and_self]
      · rw [if_neg e] at hk
        obtain ⟨a1, a2⟩ := c2 a r hk
        have hlt : r ≠ p.nextRef := Nat.ne_of_lt (ha _ r a2)
        have hne : (p.heap r).id ≠ uuid := by
          intro heq
          rw [heq, hfresh] at a2
          cases a2
        simp only [storeConn_other _ _ _ _ hlt, storeConn_same, if_neg hne]
        exact ⟨a1, a2⟩
    · intro k r hk
      dsimp only [mapSet] at hk ⊢
      by_cases e : k = uuid
      · rw [if_pos e] at hk
        injection hk with hk
        omega
      · rw [if_neg e] at hk
        exact Nat.lt_succ_of_lt (ha k r hk)

/-- The method `checkTimeoutConn` keeps consistent tables consistent, leaves
the heap addresses in use as they are and only deletes table entries. -/
theorem checkTimeoutConn_frame {F : Type} (p : Client F) (now : Time)
    (order1 order2 : List String) :
    (Consistent p → Consistent (checkTimeoutConn p now order1 order2)) ∧
    (checkTimeoutConn p now order1 order2).nextRef = p.nextRef ∧
    (∀ k r, (checkTimeoutConn p now order1 order2).localIdToConnMap k = some r →
      p.localIdToConnMap k = some r) ∧
    (∀ k r, (checkTimeoutConn p now order1 order2).localAddrToConnMap k = some r →
      p.localAddrToConnMap k = some r) := by
  unfold checkTimeoutConn
  split_ifs with hmode
  · exact ⟨fun h => h, rfl, fun _ _ h => h, fun _ _ h => h⟩
  · obtain ⟨m1, m2, m3, _, m5⟩ := markTimeout_frame now order1 p
    obtain ⟨s1, s2, _, s4, s5⟩ := sweepClosed_frame order2 (markTimeout now p order1)
    refine ⟨?_, s2.trans m3, ?_, ?_⟩
    · intro hc
      exact sweepClosed_consistent order2 _
        (Consistent_congr p _ m1 m2 (fun i => ⟨(m5 i).1, (m5 i).2.1⟩) hc)
    · intro k r h
      rw [← m1]
      exact s4 k r h
    · intro k r h
      rw [← m2]
      exact s5 k r h

/-- Every reachable state of the UDP-mode client has consistent tables, and
every registered record is allocated. -/
theorem reachable_consistent {F : Type} (p : Client F) (h : Reachable p) :
    Consistent p ∧ Allocated p := by
  induction h with
  | start p hmode hid haddr =>
    refine ⟨⟨?_, ?_⟩, ?_⟩
    · intro k r hk
      rw [hid] at hk
      cases hk
    · intro a r ha
      rw [haddr] at ha
      cases ha
    · intro k r hk
      rw [hid] at hk
      cases hk
  | accept p rd now uuid _ hfresh ih => exact Accept_consistent p rd now uuid ih.1 ih.2 hfresh
  | packet p packet now werr _ ih =>
    obtain ⟨f1, f2, f3, f4⟩ := processPacket_frame p packet now werr
    refine ⟨Consistent_congr p _ f1 f2 (fun i => ⟨(f4 i).1, (f4 i).2.1⟩) ih.1, ?_⟩
    intro k r hk
    rw [f1] at hk
    rw [f3]
    exact ih.2 k r hk
  | check p now order1 order2 _ ih =>
    obtain ⟨f1, f2, f3, _⟩ := checkTimeoutConn_frame p now order1 order2
    refine ⟨f1 ih.1, ?_⟩
    intro k r hk
    rw [f2]
    exact ih.2 k r (f3 k r hk)
  | close p k r _ hk ih =>
    refine ⟨Close_consistent p k r ih.1 hk, ?_⟩
    obtain ⟨_, c2, _, c4, _⟩ := Close_frame p (p.heap r)
    intro j s hj
    rw [c2]
    exact ih.2 j s (c4 j s hj)

/-- C10: in UDP mode, starting from empty tables and with `UniqueId` never
returning an id that is a key of `localIdToConnMap`, every state reached by
datagram handling in `Accept`, `processPacket`, `checkTimeoutConn` and `Close`
has consistent tables: a record is stored in `localIdToConnMap` under its id
exactly when it is stored in `localAddrToConnMap` under the text of its
`ipaddr`, and neither table holds any other entry. -/
theorem tables_stay_consistent {F : Type} (p : Client F) (h : Reachable p) : Consistent p :=
  (reachable_consistent p h).1

/-- C2 (as amended): in UDP mode (`tcpmode ≤ 0`), on consistent tables, with
`timeout * time.Second` not below the smallest `Duration` and both `range`
loops visiting every key, no record that is still in `localIdToConnMap` or in
`localAddrToConnMap` after `checkTimeoutConn` was last active more than
`timeout` seconds before `now`. -/
theorem checkTimeoutConn_reaps {F : Type} (p : Client F) (now : Time)
    (order1 order2 : List String) (k : String) (r : Nat)
    (hmode : p.tcpmode ≤ 0) (hc : Consistent p)
    (ho1 : ∀ j s, p.localIdToConnMap j = some s → j ∈ order1)
    (ho2 : ∀ j s, p.localIdToConnMap j = some s → j ∈ order2)
    (hlow : minDuration ≤ Second * p.timeout)
    (hk : (checkTimeoutConn p now order1 order2).localIdToConnMap k = some r ∨
      (checkTimeoutConn p now order1 order2).localAddrToConnMap k = some r) :
    ¬ (now - ((checkTimeoutConn p now order1 order2).heap r).activeTime
        > Second * p.timeout) := by
  have hc2 := (checkTimeoutConn_frame p now order1 order2).1 hc
  have key : ∀ j, (checkTimeoutConn p now order1 order2).localIdToConnMap j = some r →
      ¬ (now - ((checkTimeoutConn p now order1 order2).heap r).activeTime
        > Second * p.timeout) := by
    intro j hj
    have hmode2 : ¬ p.tcpmode > 0 := not_lt.mpr hmode
    unfold checkTimeoutConn at hj ⊢
    rw [if_neg hmode2] at hj ⊢
    obtain ⟨m1, m2, m3, m4, m5⟩ := markTimeout_frame now order1 p
    obtain ⟨s1, s2, s3, s4, s5⟩ := sweepClosed_frame order2 (markTimeout now p order1)
    have hc1 : Consistent (markTimeout now p order1) :=
      Consistent_congr p _ m1 m2 (fun i => ⟨(m5 i).1, (m5 i).2.1⟩) hc
    have hj1 : (markTimeout now p order1).localIdToConnMap j = some r := s4 j r hj
    have hj0 : p.localIdToConnMap j = some r := by rw [← m1]; exact hj1
    have hopen : ((markTimeout now p order1).heap r).close = false := by
      apply sweepClosed_sweeps order2 _ j r hc1 _ hj
      exact ho2 j r hj0
    rw [s1, (m5 r).2.2.1]
    intro hold
    have hmark := markTimeout_marks now order1 p j r (ho1 j r hj0) hj0
      (elapsed_passes_test now _ _ hlow hold)
    rw [hopen] at hmark
    cases hmark
  rcases hk with hk | hk
  · exact key k hk
  · exact key _ (hc2.2 k r hk).2

/-- The state `udpClient2` is reachable. -/
theorem udpClient2_reachable : Reachable udpClient2 :=
  Reachable.accept udpClient1 datagram2 50000000000 "c2"
    (Reachable.accept udpClient datagram 100 "c1"
      (Reachable.start udpClient (by decide) rfl rfl) rfl) rfl

/-- The keys of `localIdToConnMap` in the state `udpClient2`. -/
theorem udpClient2_keys (j : String) (s : Nat) (h : udpClient2.localIdToConnMap j = some s) :
    j ∈ ["c1", "c2"] := by
  have hm : udpClient2.localIdToConnMap = mapSet (mapSet emptyMap "c1" 0) "c2" 1 := rfl
  rw [hm] at h
  simp only [mapSet, emptyMap] at h
  split_ifs at h with e2 e1
  · simp [e2]
  · simp [e1]

/-- Witness for C10: the state after two datagrams from two addresses is
reachable, and its tables are consistent. -/
theorem tables_stay_consistent_witness : Reachable udpClient2 ∧ Consistent udpClient2 :=
  ⟨udpClient2_reachable, tables_stay_consistent udpClient2 udpClient2_reachable⟩

/-- Witness for C2 (as amended): with a timeout of 60 s, at time 61 s + 100 ns
the connection `"c1"` (last active at 100 ns) is gone and `"c2"` (last active
at 50 s) is still registered; it is not older than the timeout. -/
theorem checkTimeoutConn_reaps_witness :
    (checkTimeoutConn udpClient2 61000000100 ["c1", "c2"] ["c1", "c2"]).localIdToConnMap "c1"
      = none ∧
    (checkTimeoutConn udpClient2 61000000100 ["c1", "c2"] ["c1", "c2"]).localIdToConnMap "c2"
      = some 1 ∧
    ¬ (61000000100 -
        ((checkTimeoutConn udpClient2 61000000100 ["c1", "c2"] ["c1", "c2"]).heap 1).activeTime
      > Second * udpClient2.timeout) :=
  ⟨rfl, rfl,
    checkTimeoutConn_reaps udpClient2 61000000100 ["c1", "c2"] ["c1", "c2"] "c2" 1
      (by decide) (reachable_consistent udpClient2 udpClient2_reachable).1
      udpClient2_keys udpClient2_keys (by decide) (Or.inl rfl)⟩

/-- C2 (as stated) fails in TCP mode: the connection `"t1"` was last active at
time 0, the timeout is 60 s, and after `checkTimeoutConn` at time 61 s it is
still in both tables. -/
theorem checkTimeoutConn_tcpmode_keeps :
    tcpClient1.tcpmode > 0 ∧
    61000000000 - (tcpClient1.heap 0).activeTime > Second * tcpClient1.timeout ∧
    (checkTimeoutConn tcpClient1 61000000000 ["t1"] ["t1"]).localIdToConnMap "t1" = some 0 ∧
    (checkTimeoutConn tcpClient1 61000000000 ["t1"] ["t1"]).localAddrToConnMap
      "127.0.0.1:40000" = some 0 := by
  refine ⟨by decide, by decide, ?_, ?_⟩ <;> rfl

/-! ## Where the tables are mutated -/

/-- C9 (as amended): the acceptors do write the tables, to register
connections.  Datagram handling in `Accept` never deletes an entry; when the
source address is already a key of `localAddrToConnMap` it leaves both tables
as they are, and when it is not (and the datagram is not empty) it inserts one
entry into each table.  `AcceptTcpConn` inserts one entry into each table
before its loop, a turn of its loop leaves both tables as they are, and its
end only deletes.  Of the main loop's operations, `processPacket` leaves both
tables as they are and `checkTimeoutConn` inserts nothing: every entry after
it was there before. -/
theorem table_mutation_sites (F Frame : Type) (ops : FrameMgrOps F Frame) :
    (∀ (p : Client F) (rd : UDPRead) (now : Time) (uuid : String) (r : Nat),
      p.localAddrToConnMap (UDPAddr_String rd.srcaddr) = some r →
      (Accept p rd now uuid).1.localIdToConnMap = p.localIdToConnMap ∧
      (Accept p rd now uuid).1.localAddrToConnMap = p.localAddrToConnMap) ∧
    (∀ (p : Client F) (rd : UDPRead) (now : Time) (uuid : String) (k : String),
      ((p.localIdToConnMap k).isSome = true →
        ((Accept p rd now uuid).1.localIdToConnMap k).isSome = true) ∧
      ((p.localAddrToConnMap k).isSome = true →
        ((Accept p rd now uuid).1.localAddrToConnMap k).isSome = true)) ∧
    (∀ (p : Client F) (r : Nat) (rd : TCPRead) (now : Time)
      (res : Client F × List Event × Bool),
      AcceptTcpConn_iter ops p r rd now = some res →
      res.1.localIdToConnMap = p.localIdToConnMap ∧
      res.1.localAddrToConnMap = p.localAddrToConnMap) ∧
    (∀ (p : Client F) (packet : Packet) (now : Time) (werr : Bool),
      (processPacket p packet now werr).1.localIdToConnMap = p.localIdToConnMap ∧
      (processPacket p packet now werr).1.localAddrToConnMap = p.localAddrToConnMap) ∧
    (∀ (p : Client F) (now : Time) (order1 order2 : List String) (k : String) (r : Nat),
      ((checkTimeoutConn p now order1 order2).localIdToConnMap k = some r →
        p.localIdToConnMap k = some r) ∧
      ((checkTimeoutConn p now order1 order2).localAddrToConnMap k = some r →
        p.localAddrToConnMap k = some r)) ∧
    (∀ (p : Client F) (rd : UDPRead) (now : Time) (uuid : String),
      p.localAddrToConnMap (UDPAddr_String rd.srcaddr) = none →
      rd.err ≠ ReadErr.other → 0 < rd.n →
      (Accept p rd now uuid).1.localIdToConnMap = mapSet p.localIdToConnMap uuid p.nextRef ∧
      (Accept p rd now uuid).1.localAddrToConnMap
        = mapSet p.localAddrToConnMap (UDPAddr_String rd.srcaddr) p.nextRef) ∧
    (∀ (p : Client F) (tcpsrcaddr : TCPAddr) (uuid : String) (now : Time),
      (AcceptTcpConn_open ops p tcpsrcaddr uuid now).1.localIdToConnMap
        = mapSet p.localIdToConnMap uuid p.nextRef ∧
      (AcceptTcpConn_open ops p tcpsrcaddr uuid now).1.localAddrToConnMap
        = mapSet p.localAddrToConnMap tcpsrcaddr.text p.nextRef) ∧
    (∀ (p : Client F) (r : Nat) (k : String) (s : Nat),
      ((AcceptTcpConn_exit p r).1.localIdToConnMap k = some s →
        p.localIdToConnMap k = some s) ∧
      ((AcceptTcpConn_exit p r).1.localAddrToConnMap k = some s →
        p.localAddrToConnMap k = some s)) := by
  refine ⟨?_, ?_, ?_, ?_, ?_, ?_, ?_, ?_⟩
  · intro p rd now uuid r hr
    unfold Accept
    split_ifs
    · exact ⟨rfl, rfl⟩
    · exact ⟨rfl, rfl⟩
    · dsimp only
      rw [hr]
      exact ⟨rfl, rfl⟩
  · intro p rd now uuid k
    unfold Accept
    split_ifs
    · exact ⟨fun h => h, fun h => h⟩
    · exact ⟨fun h => h, fun h => h⟩
    · dsimp only
      cases hl : p.localAddrToConnMap (UDPAddr_String rd.srcaddr) with
      | some r => exact ⟨fun h => h, fun h => h⟩
      | none =>
        dsimp only [mapSet]
        constructor
        · intro h
          split_ifs
          · rfl
          · exact h
        · intro h
          split_ifs
          · rfl
          · exact h
  · intro p r rd now res hres
    have hsend : ∀ (fm1 : F) (evs : List Event),
        (AcceptTcpConn_send ops p r now fm1 evs).1.localIdToConnMap = p.localIdToConnMap ∧
        (AcceptTcpConn_send ops p r now fm1 evs).1.localAddrToConnMap
          = p.localAddrToConnMap := by
      intro fm1 evs
      unfold AcceptTcpConn_send
      exact sendFrames_tables ops r _ _
    unfold AcceptTcpConn_iter at hres
    cases hfm : (p.heap r).fm with
    | none =>
      rw [hfm] at hres
      cases hres
    | some fm =>
      rw [hfm] at hres
      dsimp only at hres
      split_ifs at hres <;> injection hres with hres <;> subst hres
      · exact ⟨rfl, rfl⟩
      · exact hsend _ _
      · exact hsend _ _
      · exact hsend _ _
  · intro p packet now werr
    exact ⟨(processPacket_frame p packet now werr).1, (processPacket_frame p packet now werr).2.1⟩
  · intro p now order1 order2 k r
    obtain ⟨_, _, f3, f4⟩ := checkTimeoutConn_frame p now order1 order2
    exact ⟨f3 k r, f4 k r⟩
  · intro p rd now uuid hnew herr hn
    have hn2 : ¬ rd.n ≤ 0 := not_le.mpr hn
    unfold Accept
    rw [if_neg herr, if_neg hn2]
    dsimp only
    rw [hnew]
    exact ⟨rfl, rfl⟩
  · intro p tcpsrcaddr uuid now
    exact ⟨rfl, rfl⟩
  · intro p r k s
    obtain ⟨_, _, _, c4, c5⟩ := Close_frame p (p.heap r)
    exact ⟨c4 k s, c5 k s⟩

/-- Witness for C9 (as amended): a second datagram from 127.0.0.1:5000 leaves
both tables as the first one made them, and a turn of the TCP loop that sends
a frame leaves the tables of the TCP-mode client as they are. -/
theorem table_mutation_sites_witness :
    ((Accept udpClient1 datagram 200 "c9").1.localIdToConnMap = udpClient1.localIdToConnMap ∧
      (Accept udpClient1 datagram 200 "c9").1.localAddrToConnMap
        = udpClient1.localAddrToConnMap) ∧
    (∃ res, AcceptTcpConn_iter simpleOps tcpClient1 0
        { n := 3, err := ReadErr.nil, bytes := [1, 2, 3] } 5 = some res ∧
      res.1.localIdToConnMap = tcpClient1.localIdToConnMap ∧
      res.1.localAddrToConnMap = tcpClient1.localAddrToConnMap) :=
  ⟨(table_mutation_sites Unit (List Nat)
      { NewFrameMgr := fun _ _ _ => (), GetSendBufferLeft := fun _ => 0,
        WriteSendBuffer := fun _ _ => (), Update := fun _ _ => (),
        getSendList := fun _ => [], Marshal := fun _ => none }).1
      udpClient1 datagram 200 "c9" 0 rfl,
    ⟨_, rfl, (table_mutation_sites SimpleFm (List Nat) simpleOps).2.2.1
      tcpClient1 0 { n := 3, err := ReadErr.nil, bytes := [1, 2, 3] } 5 _ rfl⟩⟩

/-- C9 (as stated) fails: the UDP acceptor inserts into both tables.  Before
the first datagram from 127.0.0.1:5000 neither table has an entry; after
`Accept` handled it, `localIdToConnMap` has the key `"c1"` and
`localAddrToConnMap` the key of the address. -/
theorem Accept_inserts :
    udpClient.localIdToConnMap "c1" = none ∧
    udpClient.localAddrToConnMap "127.0.0.1:5000" = none ∧
    (Accept udpClient datagram 100 "c1").1.localIdToConnMap "c1" = some 0 ∧
    (Accept udpClient datagram 100 "c1").1.localAddrToConnMap "127.0.0.1:5000" = some 0 := by
  refine ⟨?_, ?_, ?_, ?_⟩ <;> rfl

end Pingtunnel
